import Mathlib

set_option maxRecDepth 10000

/-!
Verification of the rule-based job scorer (`score_job` in `main.py`).

The embedding models Python values that can reach the scorer: strings,
integers, `None`, and flat lists of such atoms (the data model's sequences
are sequences of strings; malformed inputs replace atoms by non-strings).
Strings are modelled as `List Char`; `str.lower` as `Char.toLower` over the
list; Python's `\w` word-character class as ASCII alphanumerics plus
underscore (all scorer keywords and the inputs of interest are ASCII).
A Python expression that raises maps to `Except.error`.
-/

/-- A scalar Python value that can appear in a job-record field. -/
inductive PyAtom where
  | PStr : List Char → PyAtom
  | PInt : Int → PyAtom
  | PNone : PyAtom
  deriving DecidableEq, Repr

/-- A Python value: a scalar or a flat list of scalars. -/
inductive PyVal where
  | atom : PyAtom → PyVal
  | list : List PyAtom → PyVal
  deriving DecidableEq, Repr

/-- The exceptions the scorer can raise: `AttributeError` from calling
`.lower()` on a non-string, `TypeError` from `" ".join` on a list holding a
non-string. -/
inductive PyErr where
  | attributeError : PyErr
  | typeError : PyErr
  deriving DecidableEq, Repr

/-- The input mapping of `score_job`.  `none` models an absent key. -/
structure JobRecord where
  job_title : Option PyVal := none
  job_description : Option PyVal := none
  company_name : Option PyVal := none
  location : Option PyVal := none
  experience_required : Option PyVal := none
  tech_stack : Option PyVal := none
  contact_info : Option PyVal := none
  deriving DecidableEq, Repr

/-- The dict returned by `score_job`. -/
structure ScoreResult where
  score : Nat
  tier : String
  tags : List String
  deriving DecidableEq, Repr

/-- The lowercased text views lines 59-63 of `main.py` bind. -/
structure TextViews where
  desc : List Char
  title : List Char
  experience : List Char
  company : List Char
  location : List Char
  deriving DecidableEq, Repr

/-- Python `str()` of a scalar, as used on line 61 (`str(job.get(...))`
is only reached when the value is not a list). -/
def atomStr : PyAtom → List Char
  | PyAtom.PStr s => s
  | PyAtom.PInt n => (toString n).data
  | PyAtom.PNone => ("None".data)

/-- The space character. -/
def spaceChar : Char := Char.ofNat 32

/-- Python `" ".join` over a list of scalars: `TypeError` unless every
element is a string. -/
def joinStrs : List PyAtom → Except PyErr (List Char)
  | [] => Except.ok []
  | [PyAtom.PStr s] => Except.ok s
  | PyAtom.PStr s :: b :: rest =>
      match joinStrs (b :: rest) with
      | Except.ok r => Except.ok (s ++ spaceChar :: r)
      | Except.error e => Except.error e
  | _ => Except.error PyErr.typeError

/-- Line 61 of `main.py`: join a list of strings with spaces, else coerce
the scalar with `str()`; absent key defaults to `""`; lowercase the result. -/
def normalizeExperience : Option PyVal → Except PyErr (List Char)
  | some (PyVal.list vs) =>
      match joinStrs vs with
      | Except.ok s => Except.ok (s.map Char.toLower)
      | Except.error e => Except.error e
  | some (PyVal.atom a) => Except.ok ((atomStr a).map Char.toLower)
  | none => Except.ok []

/-- `job.get(key, "").lower()`: absent defaults to the empty string; a
present non-string raises `AttributeError`. -/
def getStrField (v : Option PyVal) : Except PyErr (List Char) :=
  match v.getD (PyVal.atom (PyAtom.PStr [])) with
  | PyVal.atom (PyAtom.PStr s) => Except.ok (s.map Char.toLower)
  | _ => Except.error PyErr.attributeError

/-- Python truthiness of `job.get(key)` (absent key gives `None`). -/
def pyTruthy : Option PyVal → Bool
  | none => false
  | some (PyVal.atom (PyAtom.PStr s)) => !s.isEmpty
  | some (PyVal.atom (PyAtom.PInt n)) => n != 0
  | some (PyVal.atom PyAtom.PNone) => false
  | some (PyVal.list vs) => !vs.isEmpty

/-- Line 111: `all(job.get(k) for k in ["job_title", "job_description",
"company_name", "location"])`. -/
def clarityOf (job : JobRecord) : Bool :=
  pyTruthy job.job_title && pyTruthy job.job_description &&
    pyTruthy job.company_name && pyTruthy job.location

/-- ASCII model of the regex word-character class `\w`. -/
def wordCharB (c : Char) : Bool := c.isAlphanum || c == Char.ofNat 95

/-- Drop `kw` from the front of `s` if it is a prefix, returning the rest. -/
def dropPre : List Char → List Char → Option (List Char)
  | [], s => some s
  | _ :: _, [] => none
  | k :: ks, c :: cs => if k == c then dropPre ks cs else none

/-- Does a word boundary hold right after a keyword whose final character
has word-ness `lastW`, given the rest of the string? -/
def matchEnd (lastW : Bool) (rest : List Char) : Bool :=
  match rest with
  | [] => lastW
  | c :: _ => lastW != wordCharB c

/-- Does alternative `kw` match at the current position of `s` with regex
word boundaries (`\b...\b`) on both sides?  `prev` is the word-ness of the
character just before this position (`false` at the start of the string). -/
def altHit (prev : Bool) (kw s : List Char) : Bool :=
  match kw with
  | [] => false
  | k :: ks =>
      (prev != wordCharB k) &&
        (match dropPre (k :: ks) s with
         | none => false
         | some rest => matchEnd (wordCharB (ks.getLastD k)) rest)

/-- Scan `s` for a `\b(alt1|alt2|...)\b` match; `prev` is the word-ness of
the character before the current position. -/
def reSearchAux (alts : List (List Char)) : Bool → List Char → Bool
  | prev, [] => alts.any (fun kw => altHit prev kw [])
  | prev, c :: cs =>
      alts.any (fun kw => altHit prev kw (c :: cs)) || reSearchAux alts (wordCharB c) cs

/-- `re.search(r"\b(alt1|...|altn)\b", s)` is truthy. -/
def reSearchWord (alts : List (List Char)) (s : List Char) : Bool :=
  reSearchAux alts false s

/-- `re.search(r"\bkw\b", s)` is truthy for a single keyword. -/
def containsWholeWord (kw s : List Char) : Bool :=
  reSearchAux [kw] false s

/-- `sub` is a (contiguous) prefix of `s`. -/
def startsWithL : List Char → List Char → Bool
  | [], _ => true
  | _ :: _, [] => false
  | a :: as, b :: bs => a == b && startsWithL as bs

/-- Python `sub in s` substring containment. -/
def pyIn (sub : List Char) : List Char → Bool
  | [] => startsWithL sub []
  | c :: cs => startsWithL sub (c :: cs) || pyIn sub cs

/-- Alternatives of the line-66 regex `\b(intern|unpaid)\b`. -/
def internUnpaidKws : List (List Char) := [("intern".data), ("unpaid".data)]

/-- Alternatives of the line-72 regex `\b(inr|lpa|\$|salary|stipend)\b`. -/
def wellPaidKws : List (List Char) :=
  [("inr".data), ("lpa".data), ("$".data), ("salary".data), ("stipend".data)]

/-- Substring keywords of the learning category (line 77). -/
def learnKws : List (List Char) :=
  [("mentorship".data), ("training".data), ("learning".data), ("hands-on".data)]

/-- Alternatives of the line-85 regex `\b(intern|fresher|0-1 year|entry level)\b`. -/
def studentKws : List (List Char) :=
  [("intern".data), ("fresher".data), ("0-1 year".data), ("entry level".data)]

/-- Reputed-company substrings (line 92). -/
def repKws : List (List Char) :=
  [("google".data), ("microsoft".data), ("amazon".data), ("techcorp".data), ("flipkart".data)]

/-- Work-mode substrings (line 100). -/
def workKws : List (List Char) :=
  [("remote".data), ("hybrid".data), ("work from home".data)]

/-- Compensation category, lines 66-74: first matching branch only. -/
def compCategory (desc : List Char) : Nat × List String :=
  if reSearchWord internUnpaidKws desc then (1, ["unpaid"])
  else if pyIn ("negotiable".data) desc then (2, ["negotiable"])
  else if reSearchWord wellPaidKws desc then (3, ["well_paid"])
  else (0, [])

/-- Learning category, lines 77-82. -/
def learnCategory (desc : List Char) : Nat × List String :=
  if learnKws.any (fun k => pyIn k desc) then (2, ["high_learning"])
  else if pyIn ("startup".data) desc || pyIn ("early-stage".data) desc then
    (1, ["learning_potential"])
  else (0, [])

/-- Student-friendly category, lines 85-89 (the `1-2 years` branch adds a
point but no tag). -/
def studentCategory (desc experience : List Char) : Nat × List String :=
  if reSearchWord studentKws desc then (2, ["student_friendly"])
  else if pyIn ("1-2 years".data) experience then (1, [])
  else (0, [])

/-- Company-reputation category, lines 92-97. -/
def repCategory (company desc : List Char) : Nat × List String :=
  if repKws.any (fun k => pyIn k company) then (2, ["reputed_company"])
  else if pyIn ("startup".data) desc then (1, ["startup"])
  else (0, [])

/-- Work-mode category, lines 100-102: the keywords are looked up in the
concatenation `desc + location`. -/
def workCategory (desc location : List Char) : Nat × List String :=
  if workKws.any (fun k => pyIn k (desc ++ location)) then (1, ["remote"])
  else (0, [])

/-- Employment-type category, lines 105-109 (the contract/freelance branch
adds a point but no tag). -/
def empCategory (desc : List Char) : Nat × List String :=
  if pyIn ("full-time".data) desc || pyIn ("permanent".data) desc then (2, ["full_time"])
  else if pyIn ("contract".data) desc || pyIn ("freelance".data) desc then (1, [])
  else (0, [])

/-- Completeness category, lines 111-116. -/
def infoCategory (clarity : Bool) (desc : List Char) : Nat × List String :=
  if clarity && decide (100 < desc.length) then (2, ["clear_info"])
  else if clarity then (1, [])
  else (0, [])

/-- Tier mapping, lines 118-124. -/
def tierOf (score : Nat) : String :=
  if 11 ≤ score then "high" else if 7 ≤ score then "medium" else "low"

/-- The pure scoring body, lines 65-130, on the already-extracted text
views and the clarity flag. -/
def scoreCore (t : TextViews) (clarity : Bool) : ScoreResult :=
  let comp := compCategory t.desc
  let learn := learnCategory t.desc
  let stud := studentCategory t.desc t.experience
  let rep := repCategory t.company t.desc
  let work := workCategory t.desc t.location
  let emp := empCategory t.desc
  let info := infoCategory clarity t.desc
  { score := comp.1 + learn.1 + stud.1 + rep.1 + work.1 + emp.1 + info.1,
    tier := tierOf (comp.1 + learn.1 + stud.1 + rep.1 + work.1 + emp.1 + info.1),
    tags := comp.2 ++ learn.2 ++ stud.2 ++ rep.2 ++ work.2 ++ emp.2 ++ info.2 }

/-- Lines 59-63 of `main.py`, in source order, with exception propagation. -/
def extractTexts (job : JobRecord) : Except PyErr TextViews :=
  match getStrField job.job_description with
  | Except.error e => Except.error e
  | Except.ok desc =>
    match getStrField job.job_title with
    | Except.error e => Except.error e
    | Except.ok title =>
      match normalizeExperience job.experience_required with
      | Except.error e => Except.error e
      | Except.ok experience =>
        match getStrField job.company_name with
        | Except.error e => Except.error e
        | Except.ok company =>
          match getStrField job.location with
          | Except.error e => Except.error e
          | Except.ok location =>
            Except.ok { desc := desc, title := title, experience := experience,
                        company := company, location := location }

/-- `score_job` (lines 55-130 of `main.py`). -/
def score_job (job : JobRecord) : Except PyErr ScoreResult :=
  match extractTexts job with
  | Except.error e => Except.error e
  | Except.ok t => Except.ok (scoreCore t (clarityOf job))

/-- Python `" ".join` on a list of genuine strings. -/
def joinSpace : List (List Char) → List Char
  | [] => []
  | [s] => s
  | s :: t :: rest => s ++ spaceChar :: joinSpace (t :: rest)

/-- Tags the compensation category can emit. -/
def compBlock : List String := ["unpaid", "negotiable", "well_paid"]

/-- Tags the learning category can emit. -/
def learnBlock : List String := ["high_learning", "learning_potential"]

/-- Tags the student-fit category can emit. -/
def studBlock : List String := ["student_friendly"]

/-- Tags the company-reputation category can emit. -/
def repBlock : List String := ["reputed_company", "startup"]

/-- Tags the work-mode category can emit. -/
def workBlock : List String := ["remote"]

/-- Tags the employment-type category can emit. -/
def empBlock : List String := ["full_time"]

/-- Tags the completeness category can emit. -/
def infoBlock : List String := ["clear_info"]

/-- The full tag vocabulary, in category order. -/
def tagVocabulary : List String :=
  compBlock ++ learnBlock ++ studBlock ++ repBlock ++ workBlock ++ empBlock ++ infoBlock

/-- A record whose every field is present but empty. -/
def emptyJob : JobRecord :=
  { job_title := some (PyVal.atom (PyAtom.PStr [])),
    job_description := some (PyVal.atom (PyAtom.PStr [])),
    company_name := some (PyVal.atom (PyAtom.PStr [])),
    location := some (PyVal.atom (PyAtom.PStr [])),
    experience_required := some (PyVal.list []),
    tech_stack := some (PyVal.list []),
    contact_info := some (PyVal.list []) }

/-- The description of the spec's worked example: contains the required
phrase, is longer than 100 characters, and triggers no other branch. -/
def c4desc : String :=
  "We offer an unpaid internship, remote, full-time, mentorship provided. Work with our product team on real tasks and grow fast."

/-- The spec's worked-example record: company Acme, all four required
fields non-empty. -/
def c4job : JobRecord :=
  { job_title := some (PyVal.atom (PyAtom.PStr ("Software Role".data))),
    job_description := some (PyVal.atom (PyAtom.PStr (c4desc.data))),
    company_name := some (PyVal.atom (PyAtom.PStr ("Acme".data))),
    location := some (PyVal.atom (PyAtom.PStr ("Pune".data))),
    experience_required := some (PyVal.atom (PyAtom.PStr [])),
    tech_stack := some (PyVal.list []),
    contact_info := some (PyVal.list []) }

/-- A record with a non-string `job_description`. -/
def badDescJob : JobRecord :=
  { job_description := some (PyVal.atom (PyAtom.PInt 42)) }

/-- A record whose `experience_required` sequence holds a non-string. -/
def badExpJob : JobRecord :=
  { job_description := some (PyVal.atom (PyAtom.PStr ("dev role".data))),
    experience_required := some (PyVal.list [PyAtom.PInt 1, PyAtom.PStr ("year".data)]) }

/-- A record whose description contains a leading-dollar pay mention but no
other compensation keyword. -/
def dollarJob : JobRecord :=
  { job_description := some (PyVal.atom (PyAtom.PStr ("$5000/month stipendless pay".data))) }

/-- A record where the work-mode keyword `remote` arises only from the end
of the description running into the start of the location. -/
def straddleJob : JobRecord :=
  { job_description := some (PyVal.atom (PyAtom.PStr ("Re".data))),
    location := some (PyVal.atom (PyAtom.PStr ("mote".data))) }

/-- The field is absent or bound to a string. -/
def StrOrAbsent (v : Option PyVal) : Prop :=
  v = none ∨ ∃ s, v = some (PyVal.atom (PyAtom.PStr s))

/-- The experience field is absent, a scalar (coerced with `str()`), or a
sequence of strings. -/
def ExpShapeOk (v : Option PyVal) : Prop :=
  v = none ∨ (∃ a, v = some (PyVal.atom a)) ∨
    ∃ ss : List (List Char), v = some (PyVal.list (ss.map PyAtom.PStr))

/-- A record whose fields have the shapes of the data model. -/
def WellFormed (job : JobRecord) : Prop :=
  StrOrAbsent job.job_title ∧ StrOrAbsent job.job_description ∧
    StrOrAbsent job.company_name ∧ StrOrAbsent job.location ∧
    ExpShapeOk job.experience_required

theorem joinStrs_map_pstr : ∀ ss : List (List Char), joinStrs (ss.map PyAtom.PStr) = Except.ok (joinSpace ss)
  | [] => rfl
  | [s] => rfl
  | s :: t :: rest => by
      have ih := joinStrs_map_pstr (t :: rest)
      simp only [List.map, joinStrs, joinSpace]
      rw [show (t :: rest).map PyAtom.PStr = PyAtom.PStr t :: rest.map PyAtom.PStr from rfl] at ih
      rw [ih]

theorem startsWithL_append (sub : List Char) :
    ∀ (s t : List Char), startsWithL sub s = true → startsWithL sub (s ++ t) = true := by
  induction sub with
  | nil => intro s t _; rfl
  | cons a as ih =>
    intro s t h
    cases s with
    | nil => simp [startsWithL] at h
    | cons b bs =>
      simp only [startsWithL, Bool.and_eq_true] at h ⊢
      exact ⟨h.1, ih bs t h.2⟩

theorem pyIn_append_left (sub : List Char) :
    ∀ (s t : List Char), pyIn sub s = true → pyIn sub (s ++ t) = true := by
  intro s
  induction s with
  | nil =>
    intro t h
    cases sub with
    | nil =>
      cases t with
      | nil => rfl
      | cons c cs => simp [pyIn, startsWithL]
    | cons a as => simp [pyIn, startsWithL] at h
  | cons c cs ih =>
    intro t h
    simp only [List.cons_append, pyIn, Bool.or_eq_true] at h ⊢
    rcases h with h | h
    · exact Or.inl (startsWithL_append sub (c :: cs) t h)
    · exact Or.inr (ih t h)

theorem pyIn_append_right (sub : List Char) :
    ∀ (s t : List Char), pyIn sub t = true → pyIn sub (s ++ t) = true := by
  intro s
  induction s with
  | nil => intro t h; simpa using h
  | cons c cs ih =>
    intro t h
    simp only [List.cons_append, pyIn, Bool.or_eq_true]
    exact Or.inr (ih t h)

theorem reSearchAux_of_mem (kw : List Char) (alts : List (List Char)) (hm : kw ∈ alts) :
    ∀ (s : List Char) (prev : Bool),
      reSearchAux [kw] prev s = true → reSearchAux alts prev s = true := by
  intro s
  induction s with
  | nil =>
    intro prev h
    simp only [reSearchAux, List.any_eq_true, List.mem_singleton] at h
    obtain ⟨k, hk, hhit⟩ := h
    subst hk
    exact List.any_eq_true.mpr ⟨k, hm, hhit⟩
  | cons c cs ih =>
    intro prev h
    simp only [reSearchAux, Bool.or_eq_true, List.any_eq_true, List.mem_singleton] at h ⊢
    rcases h with ⟨k, hk, hhit⟩ | h
    · subst hk
      exact Or.inl ⟨k, hm, hhit⟩
    · exact Or.inr (ih (wordCharB c) h)

theorem reSearchWord_of_mem (kw : List Char) (alts : List (List Char)) (hm : kw ∈ alts)
    (s : List Char) (h : containsWholeWord kw s = true) : reSearchWord alts s = true :=
  reSearchAux_of_mem kw alts hm s false h

theorem score_job_ok (job : JobRecord) (r : ScoreResult) (h : score_job job = Except.ok r) :
    ∃ t : TextViews, r = scoreCore t (clarityOf job) := by
  unfold score_job at h
  cases hx : extractTexts job with
  | error e => rw [hx] at h; simp at h
  | ok t => rw [hx] at h; exact ⟨t, (Except.ok.inj h).symm⟩

theorem scoreCore_tier (t : TextViews) (c : Bool) :
    (scoreCore t c).tier = tierOf (scoreCore t c).score := rfl

theorem scoreCore_tags (t : TextViews) (c : Bool) :
    (scoreCore t c).tags =
      (compCategory t.desc).2 ++ (learnCategory t.desc).2 ++
        (studentCategory t.desc t.experience).2 ++ (repCategory t.company t.desc).2 ++
        (workCategory t.desc t.location).2 ++ (empCategory t.desc).2 ++
        (infoCategory c t.desc).2 := rfl

theorem compCategory_tags_sub (d : List Char) : ((compCategory d).2).Sublist compBlock := by
  unfold compCategory
  split_ifs <;> decide

theorem learnCategory_tags_sub (d : List Char) : ((learnCategory d).2).Sublist learnBlock := by
  unfold learnCategory
  split_ifs <;> decide

theorem studentCategory_tags_sub (d e : List Char) :
    ((studentCategory d e).2).Sublist studBlock := by
  unfold studentCategory
  split_ifs <;> decide

theorem repCategory_tags_sub (c d : List Char) : ((repCategory c d).2).Sublist repBlock := by
  unfold repCategory
  split_ifs <;> decide

theorem workCategory_tags_sub (d l : List Char) : ((workCategory d l).2).Sublist workBlock := by
  unfold workCategory
  split_ifs <;> decide

theorem empCategory_tags_sub (d : List Char) : ((empCategory d).2).Sublist empBlock := by
  unfold empCategory
  split_ifs <;> decide

theorem infoCategory_tags_sub (c : Bool) (d : List Char) :
    ((infoCategory c d).2).Sublist infoBlock := by
  unfold infoCategory
  split_ifs <;> decide

theorem compCategory_counts (d : List Char) :
    List.countP (fun tag => compBlock.contains tag) (compCategory d).2 ≤ 1 ∧
    List.countP (fun tag => learnBlock.contains tag) (compCategory d).2 = 0 ∧
    List.countP (fun tag => studBlock.contains tag) (compCategory d).2 = 0 ∧
    List.countP (fun tag => repBlock.contains tag) (compCategory d).2 = 0 ∧
    List.countP (fun tag => workBlock.contains tag) (compCategory d).2 = 0 ∧
    List.countP (fun tag => empBlock.contains tag) (compCategory d).2 = 0 ∧
    List.countP (fun tag => infoBlock.contains tag) (compCategory d).2 = 0 := by
  unfold compCategory
  split_ifs <;> exact (by decide)

theorem learnCategory_counts (d : List Char) :
    List.countP (fun tag => compBlock.contains tag) (learnCategory d).2 = 0 ∧
    List.countP (fun tag => learnBlock.contains tag) (learnCategory d).2 ≤ 1 ∧
    List.countP (fun tag => studBlock.contains tag) (learnCategory d).2 = 0 ∧
    List.countP (fun tag => repBlock.contains tag) (learnCategory d).2 = 0 ∧
    List.countP (fun tag => workBlock.contains tag) (learnCategory d).2 = 0 ∧
    List.countP (fun tag => empBlock.contains tag) (learnCategory d).2 = 0 ∧
    List.countP (fun tag => infoBlock.contains tag) (learnCategory d).2 = 0 := by
  unfold learnCategory
  split_ifs <;> exact (by decide)

theorem studentCategory_counts (d e : List Char) :
    List.countP (fun tag => compBlock.contains tag) (studentCategory d e).2 = 0 ∧
    List.countP (fun tag => learnBlock.contains tag) (studentCategory d e).2 = 0 ∧
    List.countP (fun tag => studBlock.contains tag) (studentCategory d e).2 ≤ 1 ∧
    List.countP (fun tag => repBlock.contains tag) (studentCategory d e).2 = 0 ∧
    List.countP (fun tag => workBlock.contains tag) (studentCategory d e).2 = 0 ∧
    List.countP (fun tag => empBlock.contains tag) (studentCategory d e).2 = 0 ∧
    List.countP (fun tag => infoBlock.contains tag) (studentCategory d e).2 = 0 := by
  unfold studentCategory
  split_ifs <;> exact (by decide)

theorem repCategory_counts (c d : List Char) :
    List.countP (fun tag => compBlock.contains tag) (repCategory c d).2 = 0 ∧
    List.countP (fun tag => learnBlock.contains tag) (repCategory c d).2 = 0 ∧
    List.countP (fun tag => studBlock.contains tag) (repCategory c d).2 = 0 ∧
    List.countP (fun tag => repBlock.contains tag) (repCategory c d).2 ≤ 1 ∧
    List.countP (fun tag => workBlock.contains tag) (repCategory c d).2 = 0 ∧
    List.countP (fun tag => empBlock.contains tag) (repCategory c d).2 = 0 ∧
    List.countP (fun tag => infoBlock.contains tag) (repCategory c d).2 = 0 := by
  unfold repCategory
  split_ifs <;> exact (by decide)

theorem workCategory_counts (d l : List Char) :
    List.countP (fun tag => compBlock.contains tag) (workCategory d l).2 = 0 ∧
    List.countP (fun tag => learnBlock.contains tag) (workCategory d l).2 = 0 ∧
    List.countP (fun tag => studBlock.contains tag) (workCategory d l).2 = 0 ∧
    List.countP (fun tag => repBlock.contains tag) (workCategory d l).2 = 0 ∧
    List.countP (fun tag => workBlock.contains tag) (workCategory d l).2 ≤ 1 ∧
    List.countP (fun tag => empBlock.contains tag) (workCategory d l).2 = 0 ∧
    List.countP (fun tag => infoBlock.contains tag) (workCategory d l).2 = 0 := by
  unfold workCategory
  split_ifs <;> exact (by decide)

theorem empCategory_counts (d : List Char) :
    List.countP (fun tag => compBlock.contains tag) (empCategory d).2 = 0 ∧
    List.countP (fun tag => learnBlock.contains tag) (empCategory d).2 = 0 ∧
    List.countP (fun tag => studBlock.contains tag) (empCategory d).2 = 0 ∧
    List.countP (fun tag => repBlock.contains tag) (empCategory d).2 = 0 ∧
    List.countP (fun tag => workBlock.contains tag) (empCategory d).2 = 0 ∧
    List.countP (fun tag => empBlock.contains tag) (empCategory d).2 ≤ 1 ∧
    List.countP (fun tag => infoBlock.contains tag) (empCategory d).2 = 0 := by
  unfold empCategory
  split_ifs <;> exact (by decide)

theorem infoCategory_counts (c : Bool) (d : List Char) :
    List.countP (fun tag => compBlock.contains tag) (infoCategory c d).2 = 0 ∧
    List.countP (fun tag => learnBlock.contains tag) (infoCategory c d).2 = 0 ∧
    List.countP (fun tag => studBlock.contains tag) (infoCategory c d).2 = 0 ∧
    List.countP (fun tag => repBlock.contains tag) (infoCategory c d).2 = 0 ∧
    List.countP (fun tag => workBlock.contains tag) (infoCategory c d).2 = 0 ∧
    List.countP (fun tag => empBlock.contains tag) (infoCategory c d).2 = 0 ∧
    List.countP (fun tag => infoBlock.contains tag) (infoCategory c d).2 ≤ 1 := by
  unfold infoCategory
  split_ifs <;> exact (by decide)

/-- C1 counterexample: a present non-string `job_description` makes
`score_job` raise `AttributeError`, and an `experience_required` sequence
holding a non-string makes it raise `TypeError`; it does not return a
`ScoreResult` coerced from a string representation. -/
theorem score_job_raises_on_malformed :
    score_job badDescJob = Except.error PyErr.attributeError ∧
    score_job badExpJob = Except.error PyErr.typeError := ⟨rfl, rfl⟩

/-- C1 (amended): `score_job` never raises provided each of the four text
fields is absent or a string and `experience_required` is absent, a scalar
(non-string scalars are coerced via `str()`), or a sequence of strings. -/
theorem score_job_total_on_wellformed (job : JobRecord) (h : WellFormed job) :
    ∃ r, score_job job = Except.ok r := by
  obtain ⟨ht, hd, hc, hl, he⟩ := h
  obtain ⟨d, hd1⟩ : ∃ x, getStrField job.job_description = Except.ok x := by
    rcases hd with h0 | ⟨s, h0⟩ <;> rw [h0] <;> exact ⟨_, rfl⟩
  obtain ⟨ti, ht1⟩ : ∃ x, getStrField job.job_title = Except.ok x := by
    rcases ht with h0 | ⟨s, h0⟩ <;> rw [h0] <;> exact ⟨_, rfl⟩
  obtain ⟨ex, he1⟩ : ∃ x, normalizeExperience job.experience_required = Except.ok x := by
    rcases he with h0 | ⟨a, h0⟩ | ⟨ss, h0⟩ <;> rw [h0]
    · exact ⟨_, rfl⟩
    · exact ⟨_, rfl⟩
    · exact ⟨(joinSpace ss).map Char.toLower, by simp [normalizeExperience, joinStrs_map_pstr]⟩
  obtain ⟨co, hc1⟩ : ∃ x, getStrField job.company_name = Except.ok x := by
    rcases hc with h0 | ⟨s, h0⟩ <;> rw [h0] <;> exact ⟨_, rfl⟩
  obtain ⟨lo, hl1⟩ : ∃ x, getStrField job.location = Except.ok x := by
    rcases hl with h0 | ⟨s, h0⟩ <;> rw [h0] <;> exact ⟨_, rfl⟩
  refine ⟨scoreCore ⟨d, ti, ex, co, lo⟩ (clarityOf job), ?_⟩
  simp only [score_job, extractTexts, hd1, ht1, he1, hc1, hl1]

/-- C1 witness. -/
theorem score_job_total_on_wellformed_witness : ∃ r, score_job emptyJob = Except.ok r :=
  score_job_total_on_wellformed emptyJob
    ⟨Or.inr ⟨[], rfl⟩, Or.inr ⟨[], rfl⟩, Or.inr ⟨[], rfl⟩, Or.inr ⟨[], rfl⟩,
      Or.inr (Or.inr ⟨[], rfl⟩)⟩

/-- C2: the tier of every result of `score_job` is determined from the
summed score by: at least 11 gives high, 7 to 10 gives medium, below 7
gives low. -/
theorem tier_from_score_thresholds (job : JobRecord) (r : ScoreResult)
    (h : score_job job = Except.ok r) :
    (11 ≤ r.score → r.tier = "high") ∧
    (7 ≤ r.score ∧ r.score < 11 → r.tier = "medium") ∧
    (r.score < 7 → r.tier = "low") := by
  obtain ⟨t, rfl⟩ := score_job_ok job r h
  rw [scoreCore_tier]
  unfold tierOf
  refine ⟨?_, ?_, ?_⟩
  · intro hs
    rw [if_pos hs]
  · intro hs
    rw [if_neg (by omega), if_pos hs.1]
  · intro hs
    rw [if_neg (by omega), if_neg (by omega)]

/-- C2 witness. -/
theorem tier_from_score_thresholds_witness :
    ({ score := 0, tier := "low", tags := [] } : ScoreResult).tier = "low" :=
  (tier_from_score_thresholds emptyJob { score := 0, tier := "low", tags := [] } rfl).2.2
    (by decide)

/-- C3: the record with every field present and empty scores 0, tier low,
empty tag list. -/
theorem empty_record_scores_zero :
    score_job emptyJob = Except.ok { score := 0, tier := "low", tags := [] } := rfl

/-- C4: the spec's worked example (description holding the phrase, company
Acme, four non-empty fields, description longer than 100 characters) scores
8, tier medium, tags unpaid/high_learning/remote/full_time/clear_info; the
substring `intern` is present in the description but the whole-word
student-fit regex does not fire. -/
theorem sample_record_scores_eight :
    score_job c4job = Except.ok
      { score := 8, tier := "medium",
        tags := ["unpaid", "high_learning", "remote", "full_time", "clear_info"] } ∧
    pyIn ("unpaid internship, remote, full-time, mentorship provided".data)
      (c4desc.data.map Char.toLower) = true ∧
    100 < c4desc.data.length ∧
    pyIn ("intern".data) (c4desc.data.map Char.toLower) = true ∧
    reSearchWord studentKws (c4desc.data.map Char.toLower) = false :=
  ⟨rfl, by decide, by decide, by decide, by decide⟩

/-- C5: a description containing both `unpaid` and `salary` as whole words
takes only the first compensation branch: one point and the tag `unpaid`. -/
theorem compensation_first_match_wins (desc : List Char)
    (h1 : containsWholeWord ("unpaid".data) desc = true)
    (_h2 : containsWholeWord ("salary".data) desc = true) :
    compCategory desc = (1, ["unpaid"]) := by
  have hs : reSearchWord internUnpaidKws desc = true :=
    reSearchWord_of_mem ("unpaid".data) internUnpaidKws (by decide) desc h1
  simp [compCategory, hs]

/-- C5 witness. -/
theorem compensation_first_match_wins_witness :
    compCategory ("unpaid job with salary details later".data) = (1, ["unpaid"]) :=
  compensation_first_match_wins ("unpaid job with salary details later".data)
    (by decide) (by decide)

/-- C6 counterexample: the description `$5000/month stipendless pay`
contains the character `$` and no higher-priority compensation keyword, yet
the compensation category awards nothing: `\b` before `$` needs a word
character on its left, so a leading `$` never matches `\b\$\b`. -/
theorem well_paid_dollar_counterexample :
    pyIn ("$".data) ("$5000/month stipendless pay".data) = true ∧
    reSearchWord internUnpaidKws ("$5000/month stipendless pay".data) = false ∧
    pyIn ("negotiable".data) ("$5000/month stipendless pay".data) = false ∧
    compCategory ("$5000/month stipendless pay".data) = (0, []) ∧
    score_job dollarJob = Except.ok { score := 0, tier := "low", tags := [] } :=
  ⟨by decide, by decide, by decide, by decide, rfl⟩

/-- C6 (amended): when no higher-priority compensation branch matches, the
category awards +3 with tag `well_paid` for `inr`, `lpa`, `salary` or
`stipend` as whole words, and for `$` only when it sits between two word
characters (the regex `\b\$\b`); a `$` at the start of the description or
after a space does not trigger the branch. -/
theorem well_paid_amended (desc : List Char)
    (h : containsWholeWord ("inr".data) desc = true ∨
      containsWholeWord ("lpa".data) desc = true ∨
      containsWholeWord ("$".data) desc = true ∨
      containsWholeWord ("salary".data) desc = true ∨
      containsWholeWord ("stipend".data) desc = true)
    (h1 : reSearchWord internUnpaidKws desc = false)
    (h2 : pyIn ("negotiable".data) desc = false) :
    compCategory desc = (3, ["well_paid"]) := by
  have hs : reSearchWord wellPaidKws desc = true := by
    rcases h with h | h | h | h | h
    · exact reSearchWord_of_mem _ wellPaidKws (by decide) desc h
    · exact reSearchWord_of_mem _ wellPaidKws (by decide) desc h
    · exact reSearchWord_of_mem _ wellPaidKws (by decide) desc h
    · exact reSearchWord_of_mem _ wellPaidKws (by decide) desc h
    · exact reSearchWord_of_mem _ wellPaidKws (by decide) desc h
  simp [compCategory, h1, h2, hs]

/-- C6 witness. -/
theorem well_paid_amended_witness :
    compCategory ("monthly salary of 30000 paid out".data) = (3, ["well_paid"]) :=
  well_paid_amended ("monthly salary of 30000 paid out".data)
    (Or.inr (Or.inr (Or.inr (Or.inl (by decide))))) (by decide) (by decide)

/-- C7 counterexample: with description `Re` and location `mote`, neither
field contains a work-mode keyword, yet `score_job` awards the work-mode
bonus and the tag `remote`, because the code searches the concatenation
`desc + location`. -/
theorem work_mode_straddle_counterexample :
    List.any workKws (fun k => pyIn k (("Re".data).map Char.toLower)) = false ∧
    List.any workKws (fun k => pyIn k (("mote".data).map Char.toLower)) = false ∧
    score_job straddleJob = Except.ok { score := 1, tier := "low", tags := ["remote"] } :=
  ⟨by decide, by decide, rfl⟩

/-- C7 (amended): the work-mode bonus is awarded exactly when the
concatenation of description and location contains one of `remote`,
`hybrid`, `work from home`; containment in either field alone suffices, but
a keyword formed by the end of the description running into the start of
the location also triggers it. -/
theorem work_mode_concat_iff (desc location : List Char) :
    (workCategory desc location = (1, ["remote"]) ↔
      List.any workKws (fun k => pyIn k (desc ++ location)) = true) ∧
    ((List.any workKws (fun k => pyIn k desc) = true ∨
        List.any workKws (fun k => pyIn k location) = true) →
      workCategory desc location = (1, ["remote"])) := by
  constructor
  · unfold workCategory
    split_ifs with h
    · simp [h]
    · simp only [h]
      constructor
      · intro hcontr
        exact absurd hcontr (by decide)
      · intro hcontr
        cases hcontr
  · intro h
    have hc : List.any workKws (fun k => pyIn k (desc ++ location)) = true := by
      rcases h with h | h <;> rw [List.any_eq_true] at h ⊢ <;> obtain ⟨k, hk, hin⟩ := h
      · exact ⟨k, hk, pyIn_append_left k desc location hin⟩
      · exact ⟨k, hk, pyIn_append_right k desc location hin⟩
    simp [workCategory, hc]

/-- C7 witness. -/
theorem work_mode_concat_iff_witness :
    workCategory ("fully remote role".data) [] = (1, ["remote"]) :=
  (work_mode_concat_iff ("fully remote role".data) []).2 (Or.inl (by decide))

/-- C8: scoring is deterministic — two invocations of `score_job` on the
same record yield the same score, tier, and tag list. -/
theorem score_job_deterministic (job : JobRecord) (r1 r2 : ScoreResult)
    (h1 : score_job job = Except.ok r1) (h2 : score_job job = Except.ok r2) :
    r1.score = r2.score ∧ r1.tier = r2.tier ∧ r1.tags = r2.tags := by
  rw [h1] at h2
  have h := Except.ok.inj h2
  subst h
  exact ⟨rfl, rfl, rfl⟩

/-- C8 witness. -/
theorem score_job_deterministic_witness :
    ({ score := 0, tier := "low", tags := [] } : ScoreResult).score =
      ({ score := 0, tier := "low", tags := [] } : ScoreResult).score ∧
    ({ score := 0, tier := "low", tags := [] } : ScoreResult).tier =
      ({ score := 0, tier := "low", tags := [] } : ScoreResult).tier ∧
    ({ score := 0, tier := "low", tags := [] } : ScoreResult).tags =
      ({ score := 0, tier := "low", tags := [] } : ScoreResult).tags :=
  score_job_deterministic emptyJob _ _ rfl rfl

/-- C9: giving `experience_required` as a sequence of strings scores
identically to giving it as the single string obtained by joining the
sequence with spaces. -/
theorem experience_list_vs_string (job : JobRecord) (xs : List (List Char)) :
    score_job { job with experience_required := some (PyVal.list (xs.map PyAtom.PStr)) } =
    score_job { job with experience_required := some (PyVal.atom (PyAtom.PStr (joinSpace xs))) } := by
  simp only [score_job, extractTexts, normalizeExperience, joinStrs_map_pstr, atomStr,
    clarityOf]

/-- C10: the tags of every result of `score_job` are drawn from the fixed
eleven-label vocabulary, contain no duplicates, and include at most one
label from each rule category. -/
theorem tags_wellformed (job : JobRecord) (r : ScoreResult)
    (h : score_job job = Except.ok r) :
    (∀ tag ∈ r.tags, tag ∈ tagVocabulary) ∧ r.tags.Nodup ∧
    r.tags.countP (fun tag => compBlock.contains tag) ≤ 1 ∧
    r.tags.countP (fun tag => learnBlock.contains tag) ≤ 1 ∧
    r.tags.countP (fun tag => studBlock.contains tag) ≤ 1 ∧
    r.tags.countP (fun tag => repBlock.contains tag) ≤ 1 ∧
    r.tags.countP (fun tag => workBlock.contains tag) ≤ 1 ∧
    r.tags.countP (fun tag => empBlock.contains tag) ≤ 1 ∧
    r.tags.countP (fun tag => infoBlock.contains tag) ≤ 1 := by
  obtain ⟨t, rfl⟩ := score_job_ok job r h
  have hsub : ((scoreCore t (clarityOf job)).tags).Sublist tagVocabulary := by
    rw [scoreCore_tags]
    unfold tagVocabulary
    refine List.Sublist.append (List.Sublist.append (List.Sublist.append
      (List.Sublist.append (List.Sublist.append (List.Sublist.append
        (compCategory_tags_sub _) (learnCategory_tags_sub _)) (studentCategory_tags_sub _ _))
        (repCategory_tags_sub _ _)) (workCategory_tags_sub _ _)) (empCategory_tags_sub _))
      (infoCategory_tags_sub _ _)
  obtain ⟨a1, a2, a3, a4, a5, a6, a7⟩ := compCategory_counts t.desc
  obtain ⟨b1, b2, b3, b4, b5, b6, b7⟩ := learnCategory_counts t.desc
  obtain ⟨c1, c2, c3, c4, c5, c6, c7⟩ := studentCategory_counts t.desc t.experience
  obtain ⟨d1, d2, d3, d4, d5, d6, d7⟩ := repCategory_counts t.company t.desc
  obtain ⟨e1, e2, e3, e4, e5, e6, e7⟩ := workCategory_counts t.desc t.location
  obtain ⟨f1, f2, f3, f4, f5, f6, f7⟩ := empCategory_counts t.desc
  obtain ⟨g1, g2, g3, g4, g5, g6, g7⟩ := infoCategory_counts (clarityOf job) t.desc
  refine ⟨fun tag htag => hsub.subset htag, hsub.nodup (by decide), ?_, ?_, ?_, ?_, ?_, ?_, ?_⟩ <;>
    rw [scoreCore_tags] <;> simp only [List.countP_append] <;> omega

/-- C10 witness. -/
theorem tags_wellformed_witness :
    (∀ tag ∈ ([] : List String), tag ∈ tagVocabulary) ∧ ([] : List String).Nodup ∧
    ([] : List String).countP (fun tag => compBlock.contains tag) ≤ 1 ∧
    ([] : List String).countP (fun tag => learnBlock.contains tag) ≤ 1 ∧
    ([] : List String).countP (fun tag => studBlock.contains tag) ≤ 1 ∧
    ([] : List String).countP (fun tag => repBlock.contains tag) ≤ 1 ∧
    ([] : List String).countP (fun tag => workBlock.contains tag) ≤ 1 ∧
    ([] : List String).countP (fun tag => empBlock.contains tag) ≤ 1 ∧
    ([] : List String).countP (fun tag => infoBlock.contains tag) ≤ 1 :=
  tags_wellformed emptyJob { score := 0, tier := "low", tags := [] } rfl
